import Mathlib

/-!
# VaQuoleUI : the web-view component (`VaQuoleUIComponent.cpp`)

A shallow embedding of `UVaQuoleUIComponent`: the component's fields, the calls it makes into
the embedded page, the queue of rendering-thread commands it issues and the render resources
those commands act on.  Engine routines that the component calls (string search and
replacement, transient texture creation, the render command queue) are outside the repository;
they are embedded by their engine behaviour, each marked as such.
-/

namespace VaQuoleUI

/-! ## Engine string primitives used by `OpenURL` -/

/-- An `FString`, as its sequence of characters. -/
abbrev FString := List Char

/-- Engine primitive: comparison of two characters ignoring case (both are upper-cased, as
`FCString::Stristr` and `Strnicmp` do).  Upper-casing is that of the ASCII letters: the letters
of the scheme searched for are ASCII and are the upper case of no other character. -/
def EqualIgnoreCase (a b : Char) : Bool := a.toUpper == b.toUpper

/-- Engine primitive `Strnicmp(Str, Find, Strlen(Find)) == 0`: `Str` starts with `Find`,
ignoring case. -/
def StartsWithIgnoreCase : FString → FString → Bool
  | [], _ => true
  | _ :: _, [] => false
  | f :: fs, c :: cs => EqualIgnoreCase f c && StartsWithIgnoreCase fs cs

/-- Engine primitive `FCString::Stristr(Str, Find)`: offset of the first occurrence of `Find` in
`Str`, ignoring case, or `none` when there is none. -/
def Stristr : FString → FString → Option Nat
  | [], _ => none
  | c :: cs, Find =>
    if StartsWithIgnoreCase Find (c :: cs) then some 0
    else (Stristr cs Find).map (· + 1)

/-- Engine primitive `FString::Contains(SubStr, ESearchCase::IgnoreCase, ESearchDir::FromStart)`:
`Find(SubStr, ...) != INDEX_NONE`. -/
def Contains (Str SubStr : FString) : Bool := (Stristr Str SubStr).isSome

/-- The loop of the engine primitive `FString::Replace`: look for `From` in the remaining text
`Travel`; copy everything up to the occurrence, copy `To`, continue after the occurrence; when
there is no further occurrence copy what is left.  Every round consumes at least one character
of `Travel`, so `Travel.length` rounds suffice. -/
def ReplaceLoop (From To : FString) : Nat → FString → FString
  | 0, Travel => Travel
  | fuel + 1, Travel =>
    match Stristr Travel From with
    | none => Travel
    | some i => Travel.take i ++ To ++ ReplaceLoop From To fuel (Travel.drop (i + From.length))

/-- Engine primitive `FString::Replace(From, To, ESearchCase::IgnoreCase)`: every occurrence of
`From` (found left to right, ignoring case, not overlapping) is replaced by `To`. -/
def Replace (Str From To : FString) : FString :=
  if Str = [] ∨ From = [] then Str else ReplaceLoop From To Str.length Str

/-- The reserved scheme `TEXT("vaquole://")`. -/
def VaQuoleScheme : FString := "vaquole://".toList

/-- The marker `TEXT("file:///")`. -/
def FileScheme : FString := "file:///".toList

/-! ## Machine integers and memory -/

/-- A value of type `int32` after an arithmetic operation: two's complement wrap-around. -/
def WrapInt32 (x : Int) : Int := (x + 2 ^ 31) % 2 ^ 32 - 2 ^ 31

/-- Conversion of an `int32` to `size_t` (64 bit). -/
def ToSizeT (x : Int) : Nat := (x % 2 ^ 64).toNat

/-- Conversion of an `int32` to `uint32`. -/
def ToUInt32 (x : Int) : Nat := (x % 2 ^ 32).toNat

/-- The bytes at `dst` after `FMemory::Memcpy(dst, src, n)`: the first `n` bytes are those of
`src`, the others are kept.  The destination keeps its extent; a source byte past the end of
`src` has no specified value and reads as `0`. -/
def Memcpy : List Nat → List Nat → Nat → List Nat
  | [], _, _ => []
  | d :: ds, _, 0 => d :: ds
  | _ :: ds, [], n + 1 => 0 :: Memcpy ds [] n
  | _ :: ds, b :: bs, n + 1 => b :: Memcpy ds bs n

/-! ## Data model -/

/-- Modelled from the spec: `FVaQuoleTextureData`, the frame buffer handed to the rendering
thread (its declaration is not in the source file).  The spec gives it a width, a height, a
number of bytes per pixel and an owned byte sequence. -/
structure FVaQuoleTextureData where
  Width : Nat
  Height : Nat
  StrideBytes : Nat
  Bytes : List Nat
  deriving DecidableEq

/-- Modelled from the spec: `FVaQuoleTextureData::SetRawData`, which stores the dimensions and
the bytes of the snapshot. -/
def FVaQuoleTextureData.SetRawData (InWidth InHeight InStride : Nat) (InBytes : List Nat) :
    FVaQuoleTextureData :=
  { Width := InWidth, Height := InHeight, StrideBytes := InStride, Bytes := InBytes }

/-- Modelled from the spec: `FVaQuoleTextureData::GetDataSize`, the byte count
`width * height * bytesPerPixel` of the snapshot. -/
def FVaQuoleTextureData.GetDataSize (d : FVaQuoleTextureData) : Nat :=
  d.Width * d.Height * d.StrideBytes

/-- Modelled from the spec: `FVaQuoleTextureData::GetRawBytesPtr`, the snapshot's bytes. -/
def FVaQuoleTextureData.GetRawBytesPtr (d : FVaQuoleTextureData) : List Nat := d.Bytes

/-- A call made into the embedded page (`VaQuole::VaQuoleWebPage`). -/
inductive PageCall
  | Destroy
  | SetTransparent (Transparent : Bool)
  | Resize (Width Height : Int)
  | EvaluateJavaScript (ScriptSource : FString)
  | OpenURL (URL : FString)
  | MouseMove (X Y : Int)
  | IsPendingVisualEvents
  | GrabView
  deriving DecidableEq

/-- The game-thread texture object `UTexture2D` the component points to. -/
structure UTexture2D where
  Id : Nat
  SizeX : Int
  SizeY : Int
  InRoot : Bool
  /-- The `Resource` pointer: the render resource created by `UpdateResource`, if any. -/
  Resource : Option Nat
  deriving DecidableEq

/-- A render resource (`FTexture2DResource`) as the rendering thread sees it. -/
structure FTexture2DResource where
  Id : Nat
  SizeX : Int
  SizeY : Int
  /-- The RHI texture: absent until the resource is initialised on the rendering thread, then
  the bytes of its mip-0 storage. -/
  Texture2DRHI : Option (List Nat)
  Released : Bool
  deriving DecidableEq

/-- A command queued for the rendering thread. -/
inductive RenderCommand
  /-- Queued by `UpdateResource` (`BeginInitResource`). -/
  | InitResource (Resource : Nat)
  /-- The `UpdateVaQuoleTexture` command of `UpdateUITexture`, with its three captured values. -/
  | UpdateVaQuoleTexture (ImageData : FVaQuoleTextureData) (TargetTexture : Nat) (DataSize : Nat)
  /-- Queued by `BeginReleaseResource`. -/
  | ReleaseResource (Resource : Nat)
  deriving DecidableEq

/-- What the rendering thread did when it executed a command. -/
inductive RenderEvent
  | InitRHI (Resource : Nat)
  /-- The lock succeeded and the bytes were copied into the live mip-0 storage. -/
  | Upload (TargetTexture : Nat) (Bytes : List Nat)
  | LockFailed (TargetTexture : Nat)
  /-- An upload command was executed on a texture that is not live: an access to a handle
  already released (or not yet initialised). -/
  | StaleAccess (TargetTexture : Nat)
  | ReleaseRHI (Resource : Nat)
  deriving DecidableEq

/-- The host the component runs in: the answers of the engine and of the page library that do
not depend on the component. -/
structure Host where
  /-- The path `FPaths::ConvertRelativePathToFull(FPaths::GameDir())`. -/
  GameDir : FString
  /-- Whether `VaQuole::ConstructNewPage()` returns a page. -/
  ConstructNewPage : Bool
  /-- Whether `UpdateResource` creates a render resource (the host can render). -/
  CanEverRender : Bool
  /-- Whether `RHILockTexture2D` on the given texture returns storage. -/
  RHILockTexture2D : Nat → Bool
  /-- Whether `UMaterialInstanceDynamic::Create` returns an instance. -/
  CreateMaterialInstance : Bool
  /-- Whether `GetTextureParameterValue` finds the named parameter. -/
  HasTextureParameter : Bool

/-- The component `UVaQuoleUIComponent` with the part of the world it acts on. -/
structure UVaQuoleUIComponent where
  bEnabled : Bool
  bTransparent : Bool
  Width : Int
  Height : Int
  DefaultURL : FString
  TextureParameterNameIsNone : Bool
  BaseMaterial : Bool
  /-- The stored mouse position; only its `(int32)` casts are ever used. -/
  MouseWidgetPosition : Int × Int
  /-- The `WebPage` pointer is not `NULL`. -/
  WebPage : Bool
  Texture : Option UTexture2D
  /-- The material instance, with the texture bound to its parameter. -/
  MaterialInstance : Option (Option Nat)
  /-- Every call made into the page so far, oldest first. -/
  PageCalls : List PageCall
  /-- The commands queued for the rendering thread and not yet executed, oldest first. -/
  RenderQueue : List RenderCommand
  /-- Every render resource created so far. -/
  Resources : List FTexture2DResource
  /-- What the rendering thread has done so far, oldest first. -/
  RenderLog : List RenderEvent
  /-- The texture objects created by `CreateTransient` and not yet marked pending kill. -/
  LiveTextures : List Nat
  /-- The largest number of texture objects that were live at the same time so far. -/
  MaxLiveTextures : Nat
  /-- The next unused object identity. -/
  NextId : Nat
  deriving DecidableEq

/-! ## The rendering thread -/

/-- The texture `t` is live: a resource with that identity is initialised and not released. -/
def IsLive (R : List FTexture2DResource) (t : Nat) : Bool :=
  R.any (fun r => r.Id == t && !r.Released && r.Texture2DRHI.isSome)

/-- The render resources created and not yet released. -/
def Unreleased (R : List FTexture2DResource) : List FTexture2DResource :=
  R.filter (fun r => !r.Released)

/-- The zero-filled mip-0 storage of a new `SizeX × SizeY` texture of four bytes per pixel. -/
def NewStorage (SizeX SizeY : Int) : List Nat := List.replicate (SizeX * SizeY * 4).toNat 0

/-- The copy in the body of `UpdateVaQuoleTexture`:
`FMemory::Memcpy(MipData, ImageData->GetRawBytesPtr(), ImageData->GetDataSize())`. -/
def CopyInto (ImageData : FVaQuoleTextureData) (MipData : List Nat) : List Nat :=
  Memcpy MipData ImageData.GetRawBytesPtr ImageData.GetDataSize

/-- The rendering thread executes one command on the render resources, and logs what it did.
The body of `UpdateVaQuoleTexture` locks mip 0 of the target and, when the lock gives storage,
copies `ImageData->GetDataSize()` bytes from `ImageData->GetRawBytesPtr()` into it.  The code has
no test of the target; the embedding records an execution whose target is not live as a stale
access, so that its absence can be stated. -/
def Execute (H : Host) (R : List FTexture2DResource) (L : List RenderEvent) :
    RenderCommand → List FTexture2DResource × List RenderEvent
  | .InitResource res =>
    (R.map (fun r => if r.Id == res && !r.Released && r.Texture2DRHI.isNone
        then { r with Texture2DRHI := some (NewStorage r.SizeX r.SizeY) } else r),
      L ++ [RenderEvent.InitRHI res])
  | .UpdateVaQuoleTexture ImageData TargetTexture _ =>
    if !IsLive R TargetTexture then (R, L ++ [RenderEvent.StaleAccess TargetTexture])
    else if H.RHILockTexture2D TargetTexture then
      (R.map (fun r => if r.Id == TargetTexture && !r.Released
          then { r with Texture2DRHI := r.Texture2DRHI.map (CopyInto ImageData) }
          else r),
        L ++ [RenderEvent.Upload TargetTexture
          (ImageData.GetRawBytesPtr.take ImageData.GetDataSize)])
    else (R, L ++ [RenderEvent.LockFailed TargetTexture])
  | .ReleaseResource res =>
    (R.map (fun r => if r.Id == res then { r with Texture2DRHI := none, Released := true } else r),
      L ++ [RenderEvent.ReleaseRHI res])

/-- The rendering thread executes the commands `Q`, oldest first. -/
def ExecuteAll (H : Host) :
    List RenderCommand → List FTexture2DResource × List RenderEvent →
      List FTexture2DResource × List RenderEvent
  | [], RL => RL
  | c :: Q, RL => ExecuteAll H Q (Execute H RL.1 RL.2 c)

/-- The rendering thread, running on its own, executes the oldest queued command. -/
def RenderThreadStep (H : Host) (s : UVaQuoleUIComponent) : UVaQuoleUIComponent :=
  match s.RenderQueue with
  | [] => s
  | c :: Q =>
    let RL := Execute H s.Resources s.RenderLog c
    { s with RenderQueue := Q, Resources := RL.1, RenderLog := RL.2 }

/-- Engine routine `FlushRenderingCommands`: blocks until the rendering thread has executed every
queued command. -/
def FlushRenderingCommands (H : Host) (s : UVaQuoleUIComponent) : UVaQuoleUIComponent :=
  let RL := ExecuteAll H s.RenderQueue (s.Resources, s.RenderLog)
  { s with RenderQueue := [], Resources := RL.1, RenderLog := RL.2 }

/-- Engine routine `BeginReleaseResource`: queues the release of a render resource. -/
def BeginReleaseResource (s : UVaQuoleUIComponent) (res : Nat) : UVaQuoleUIComponent :=
  { s with RenderQueue := s.RenderQueue ++ [RenderCommand.ReleaseResource res] }

/-! ## The component's operations -/

/-- The constructor `UVaQuoleUIComponent::UVaQuoleUIComponent`; the object's other fields are
zero-initialised.  `BaseMaterial` is the material assigned to the component, if any. -/
def Construct (BaseMaterial : Bool) : UVaQuoleUIComponent :=
  { bEnabled := true, bTransparent := true, Width := 256, Height := 256,
    DefaultURL := "http://html5test.com".toList,
    TextureParameterNameIsNone := false, BaseMaterial := BaseMaterial,
    MouseWidgetPosition := (0, 0), WebPage := false, Texture := none, MaterialInstance := none,
    PageCalls := [], RenderQueue := [], Resources := [], RenderLog := [], LiveTextures := [],
    MaxLiveTextures := 0, NextId := 0 }

/-- The method `UVaQuoleUIComponent::DestroyUITexture`. -/
def DestroyUITexture (H : Host) (s : UVaQuoleUIComponent) : UVaQuoleUIComponent :=
  match s.Texture with
  | none => s
  | some Texture =>
    -- Texture->RemoveFromRoot()
    let s := { s with Texture := some { Texture with InRoot := false } }
    let s := match Texture.Resource with
      | some res => FlushRenderingCommands H (BeginReleaseResource s res)
      | none => s
    -- Texture->MarkPendingKill(); Texture = nullptr
    { s with LiveTextures := s.LiveTextures.erase Texture.Id, Texture := none }

/-- Engine routine `UTexture2D::CreateTransient(InSizeX, InSizeY)` with the default pixel format
(blocks of one pixel): a new texture object when both sizes are positive, no object (`NULL`)
otherwise. -/
def CreateTransient (s : UVaQuoleUIComponent) (InSizeX InSizeY : Int) :
    Option UTexture2D × UVaQuoleUIComponent :=
  if 0 < InSizeX ∧ 0 < InSizeY then
    (some { Id := s.NextId, SizeX := InSizeX, SizeY := InSizeY, InRoot := false, Resource := none },
      { s with
        LiveTextures := s.LiveTextures ++ [s.NextId],
        MaxLiveTextures := max s.MaxLiveTextures (s.LiveTextures.length + 1),
        NextId := s.NextId + 1 })
  else (none, s)

/-- Engine routine `UTexture::UpdateResource` on the component's (new) texture: on a host that
renders, a render resource of the texture's size is created and its initialisation is queued for
the rendering thread. -/
def UpdateResource (H : Host) (s : UVaQuoleUIComponent) (Texture : UTexture2D) :
    UVaQuoleUIComponent :=
  if H.CanEverRender then
    { s with
      Texture := some { Texture with Resource := some s.NextId },
      Resources := s.Resources ++
        [{ Id := s.NextId, SizeX := Texture.SizeX, SizeY := Texture.SizeY,
           Texture2DRHI := none, Released := false }],
      RenderQueue := s.RenderQueue ++ [RenderCommand.InitResource s.NextId],
      NextId := s.NextId + 1 }
  else { s with Texture := some { Texture with Resource := none } }

/-- The method `UVaQuoleUIComponent::ResetMaterialInstance`. -/
def ResetMaterialInstance (H : Host) (s : UVaQuoleUIComponent) : UVaQuoleUIComponent :=
  match s.Texture with
  | none => s
  | some Texture =>
    if !s.BaseMaterial || s.TextureParameterNameIsNone then s
    else if !H.CreateMaterialInstance then { s with MaterialInstance := none }
    else if !H.HasTextureParameter then { s with MaterialInstance := some none }
    else { s with MaterialInstance := some (some Texture.Id) }

/-- The method `UVaQuoleUIComponent::ResetUITexture`.  The result of `CreateTransient` is used
at once (`Texture->AddToRoot()`): when it is `NULL` the call faults, which is the result
`none`. -/
def ResetUITexture (H : Host) (s : UVaQuoleUIComponent) : Option UVaQuoleUIComponent :=
  let s := DestroyUITexture H s
  match CreateTransient s s.Width s.Height with
  | (none, _) => none
  | (some Texture, s) =>
    -- Texture->AddToRoot()
    let Texture := { Texture with InRoot := true }
    let s := UpdateResource H { s with Texture := some Texture } Texture
    some (ResetMaterialInstance H s)

/-- The method `UVaQuoleUIComponent::UpdateUITexture`.  `IsPendingVisualEvents` is the answer
the page gives when asked, `View` the bytes at the pointer `GrabView` returns. -/
def UpdateUITexture (s : UVaQuoleUIComponent) (IsPendingVisualEvents : Bool) (View : List Nat) :
    UVaQuoleUIComponent :=
  if !s.bEnabled || !s.WebPage then s
  else
    let s := { s with PageCalls := s.PageCalls ++ [PageCall.IsPendingVisualEvents] }
    if IsPendingVisualEvents then s
    else
      match s.Texture with
      | none => s
      | some Texture =>
        match Texture.Resource with
        | none => s
        | some rhiRef =>
          if !IsLive s.Resources rhiRef then s
          else
            let s := { s with PageCalls := s.PageCalls ++ [PageCall.GrabView] }
            let size : Nat := ToSizeT (WrapInt32 (s.Width * s.Height)) * 4 % 2 ^ 64
            -- ViewBuffer.Init(Width * Height), then Memcpy(ViewBuffer.GetData(), my_data, size)
            let ViewBuffer :=
              Memcpy (List.replicate ((WrapInt32 (s.Width * s.Height)).toNat * 4) 0) View size
            let DataPtr :=
              FVaQuoleTextureData.SetRawData (ToUInt32 s.Width) (ToUInt32 s.Height) 4 ViewBuffer
            { s with RenderQueue :=
                s.RenderQueue ++ [RenderCommand.UpdateVaQuoleTexture DataPtr rhiRef size] }

/-- The method `UVaQuoleUIComponent::UpdateMousePosition`. -/
def UpdateMousePosition (s : UVaQuoleUIComponent) : UVaQuoleUIComponent :=
  if !s.bEnabled || !s.WebPage then s
  else { s with PageCalls :=
    s.PageCalls ++ [PageCall.MouseMove s.MouseWidgetPosition.1 s.MouseWidgetPosition.2] }

/-- The method `UVaQuoleUIComponent::TickComponent`. -/
def TickComponent (s : UVaQuoleUIComponent) (IsPendingVisualEvents : Bool) (View : List Nat) :
    UVaQuoleUIComponent :=
  UpdateMousePosition (UpdateUITexture s IsPendingVisualEvents View)

/-- The method `UVaQuoleUIComponent::SetEnabled`. -/
def SetEnabled (s : UVaQuoleUIComponent) (Enabled : Bool) : UVaQuoleUIComponent :=
  { s with bEnabled := Enabled }

/-- The method `UVaQuoleUIComponent::SetTransparent`. -/
def SetTransparent (s : UVaQuoleUIComponent) (Transparent : Bool) : UVaQuoleUIComponent :=
  let s := { s with bTransparent := Transparent }
  if s.WebPage then
    { s with PageCalls := s.PageCalls ++ [PageCall.SetTransparent s.bTransparent] }
  else s

/-- The method `UVaQuoleUIComponent::Resize`. -/
def Resize (H : Host) (s : UVaQuoleUIComponent) (NewWidth NewHeight : Int) :
    Option UVaQuoleUIComponent :=
  let s := { s with Width := NewWidth, Height := NewHeight }
  let s :=
    if s.WebPage then { s with PageCalls := s.PageCalls ++ [PageCall.Resize s.Width s.Height] }
    else s
  ResetUITexture H s

/-- The method `UVaQuoleUIComponent::EvaluateJavaScript`. -/
def EvaluateJavaScript (s : UVaQuoleUIComponent) (ScriptSource : FString) :
    UVaQuoleUIComponent :=
  if !s.bEnabled || !s.WebPage then s
  else { s with PageCalls := s.PageCalls ++ [PageCall.EvaluateJavaScript ScriptSource] }

/-- The argument `OpenURL` hands to the page for `URL`. -/
def OpenURLTarget (H : Host) (URL : FString) : FString :=
  if Contains URL VaQuoleScheme then
    let GameDir := H.GameDir
    let LocalFile := Replace URL VaQuoleScheme GameDir
    FileScheme ++ LocalFile
  else URL

/-- The method `UVaQuoleUIComponent::OpenURL`. -/
def OpenURL (H : Host) (s : UVaQuoleUIComponent) (URL : FString) : UVaQuoleUIComponent :=
  if !s.bEnabled || !s.WebPage then s
  else { s with PageCalls := s.PageCalls ++ [PageCall.OpenURL (OpenURLTarget H URL)] }

/-- The method `UVaQuoleUIComponent::SetMousePosition`. -/
def SetMousePosition (s : UVaQuoleUIComponent) (X Y : Int) : UVaQuoleUIComponent :=
  { s with MouseWidgetPosition := (X, Y) }

/-- The method `UVaQuoleUIComponent::InitializeComponent`. -/
def InitializeComponent (H : Host) (s : UVaQuoleUIComponent) : Option UVaQuoleUIComponent :=
  let s := { s with WebPage := H.ConstructNewPage }
  let s := SetTransparent s s.bTransparent
  (Resize H s s.Width s.Height).map (fun s => OpenURL H s s.DefaultURL)

/-- The method `UVaQuoleUIComponent::BeginDestroy`. -/
def BeginDestroy (H : Host) (s : UVaQuoleUIComponent) : UVaQuoleUIComponent :=
  let s := if s.WebPage then { s with PageCalls := s.PageCalls ++ [PageCall.Destroy] } else s
  DestroyUITexture H s

/-! ## Runs of the component -/

/-- One step of a run: a public operation of the component, or a step the rendering thread
takes on its own between two operations. -/
inductive Op
  | InitializeComponent
  | BeginDestroy
  | TickComponent (IsPendingVisualEvents : Bool) (View : List Nat)
  | SetEnabled (Enabled : Bool)
  | SetTransparent (Transparent : Bool)
  | Resize (NewWidth NewHeight : Int)
  | EvaluateJavaScript (ScriptSource : FString)
  | OpenURL (URL : FString)
  | SetMousePosition (X Y : Int)
  | RenderThread
  deriving DecidableEq

/-- The state after one step, `none` when the step faults. -/
def Step (H : Host) (s : UVaQuoleUIComponent) : Op → Option UVaQuoleUIComponent
  | .InitializeComponent => InitializeComponent H s
  | .BeginDestroy => some (BeginDestroy H s)
  | .TickComponent p v => some (TickComponent s p v)
  | .SetEnabled b => some (SetEnabled s b)
  | .SetTransparent b => some (SetTransparent s b)
  | .Resize w h => Resize H s w h
  | .EvaluateJavaScript src => some (EvaluateJavaScript s src)
  | .OpenURL url => some (OpenURL H s url)
  | .SetMousePosition x y => some (SetMousePosition s x y)
  | .RenderThread => some (RenderThreadStep H s)

/-- The state after a sequence of steps, `none` when one of them faults. -/
def Run (H : Host) (s : UVaQuoleUIComponent) : List Op → Option UVaQuoleUIComponent
  | [] => some s
  | op :: ops => (Step H s op).bind (fun s => Run H s ops)

/-- The number of live texture handles: texture objects created and not yet released. -/
def LiveHandles (s : UVaQuoleUIComponent) : Nat := s.LiveTextures.length

/-- The number of render resources created and not yet released. -/
def LiveResources (s : UVaQuoleUIComponent) : Nat :=
  (s.Resources.filter (fun r => !r.Released)).length

/-- A host for examples: the path of the project root `/proj` is `/proj/`, and everything is
available. -/
def ExampleHost : Host :=
  { GameDir := "/proj/".toList, ConstructNewPage := true, CanEverRender := true,
    RHILockTexture2D := fun _ => true, CreateMaterialInstance := true,
    HasTextureParameter := true }

/-- An enabled component with a page, for examples. -/
def ExampleActive : UVaQuoleUIComponent := { Construct true with WebPage := true }

/-- A disabled component with a page, for examples. -/
def ExampleDisabled : UVaQuoleUIComponent :=
  { Construct true with WebPage := true, bEnabled := false }

/-- The new calls into the page between the states `s` and `s1`. -/
def NewPageCalls (s s1 : UVaQuoleUIComponent) : List PageCall :=
  s1.PageCalls.drop s.PageCalls.length

/-! ## The invariant of the texture lifecycle -/

/-- The render resource the component's texture points to. -/
def CurrentResource (s : UVaQuoleUIComponent) : Option Nat := s.Texture.bind (fun t => t.Resource)

/-- The state of the rendering thread while the component's texture has the render resource
`rid` of size `W × H`: that resource is the only one not released, its storage (once
initialised) has `W * H * 4` bytes, and every queued command initialises it or uploads into it,
an upload being queued only once the storage is there. -/
def RenderInv (rid : Nat) (W H : Int) (R : List FTexture2DResource) (Q : List RenderCommand) :
    Prop :=
  ∃ r, Unreleased R = [r] ∧ r.Id = rid ∧ r.SizeX = W ∧ r.SizeY = H ∧
    (∀ st, r.Texture2DRHI = some st → st.length = (W * H * 4).toNat) ∧
    (∀ c ∈ Q, c = RenderCommand.InitResource rid ∨
      ∃ img n, c = RenderCommand.UpdateVaQuoleTexture img rid n ∧ r.Texture2DRHI.isSome = true)

/-- The part of the invariant that does not mention the component's logical size. -/
structure TextureInv (s : UVaQuoleUIComponent) : Prop where
  live : s.LiveTextures = (s.Texture.map (fun t => t.Id)).toList
  maxLive : s.MaxLiveTextures ≤ 1
  pos : ∀ t, s.Texture = some t → 0 < t.SizeX ∧ 0 < t.SizeY
  resNone : CurrentResource s = none → Unreleased s.Resources = [] ∧ s.RenderQueue = []
  resSome : ∀ t rid, s.Texture = some t → t.Resource = some rid →
    RenderInv rid t.SizeX t.SizeY s.Resources s.RenderQueue
  log : ∀ t, RenderEvent.StaleAccess t ∉ s.RenderLog

/-- The invariant of the component between two operations. -/
def Inv (s : UVaQuoleUIComponent) : Prop :=
  TextureInv s ∧ ∀ t, s.Texture = some t → t.SizeX = s.Width ∧ t.SizeY = s.Height

/-- A change of one render resource that keeps its identity, size and released flag, keeps
initialised storage initialised and keeps the extent of the storage. -/
structure Benign (f : FTexture2DResource → FTexture2DResource) : Prop where
  released : ∀ r, (f r).Released = r.Released
  id : ∀ r, (f r).Id = r.Id
  sizeX : ∀ r, (f r).SizeX = r.SizeX
  sizeY : ∀ r, (f r).SizeY = r.SizeY
  rhi : ∀ r, r.Texture2DRHI.isSome = true → (f r).Texture2DRHI.isSome = true
  len : ∀ r N, r.Released = false → N = (r.SizeX * r.SizeY * 4).toNat →
    (∀ st, r.Texture2DRHI = some st → st.length = N) →
    ∀ st, (f r).Texture2DRHI = some st → st.length = N

/-- What the rendering thread logs when it executes an upload into a live texture. -/
def UploadEvent (H : Host) (ImageData : FVaQuoleTextureData) (TargetTexture : Nat) : RenderEvent :=
  if H.RHILockTexture2D TargetTexture then
    RenderEvent.Upload TargetTexture (ImageData.GetRawBytesPtr.take ImageData.GetDataSize)
  else RenderEvent.LockFailed TargetTexture

/-- The snapshot `UpdateUITexture` hands to the rendering thread when it grabs `View`. -/
def Snapshot (s : UVaQuoleUIComponent) (View : List Nat) : FVaQuoleTextureData :=
  FVaQuoleTextureData.SetRawData (ToUInt32 s.Width) (ToUInt32 s.Height) 4
    (Memcpy (List.replicate ((WrapInt32 (s.Width * s.Height)).toNat * 4) 0) View
      (ToSizeT (WrapInt32 (s.Width * s.Height)) * 4 % 2 ^ 64))

/-- What the rendering thread logs when it executes a queued command whose target is live. -/
def EventOf (H : Host) : RenderCommand → RenderEvent
  | .InitResource res => RenderEvent.InitRHI res
  | .UpdateVaQuoleTexture ImageData TargetTexture _ => UploadEvent H ImageData TargetTexture
  | .ReleaseResource res => RenderEvent.ReleaseRHI res

/-- The example component after `Resize(2, 1)`, `InitializeComponent` and one step of the
rendering thread: enabled, with a page and a prepared `2 × 1` texture. -/
def ExampleReady : UVaQuoleUIComponent :=
  { bEnabled := true, bTransparent := true, Width := 2, Height := 1,
    DefaultURL := "http://html5test.com".toList,
    TextureParameterNameIsNone := false, BaseMaterial := true, MouseWidgetPosition := (0, 0),
    WebPage := true,
    Texture := some { Id := 2, SizeX := 2, SizeY := 1, InRoot := true, Resource := some 3 },
    MaterialInstance := some (some 2),
    PageCalls := [PageCall.SetTransparent true, PageCall.Resize 2 1,
      PageCall.OpenURL "http://html5test.com".toList],
    RenderQueue := [],
    Resources := [{ Id := 1, SizeX := 2, SizeY := 1, Texture2DRHI := none, Released := true },
      { Id := 3, SizeX := 2, SizeY := 1, Texture2DRHI := some [0, 0, 0, 0, 0, 0, 0, 0],
        Released := false }],
    RenderLog := [RenderEvent.InitRHI 1, RenderEvent.ReleaseRHI 1, RenderEvent.InitRHI 3],
    LiveTextures := [2], MaxLiveTextures := 1, NextId := 4 }

/-- The steps that lead to `ExampleReady`. -/
def ExampleReadyOps : List Op := [Op.Resize 2 1, Op.InitializeComponent, Op.RenderThread]

/-- The frame of the example: the eight bytes of a `2 × 1` view. -/
def ExampleView : List Nat := [1, 2, 3, 4, 5, 6, 7, 8]

/-- The example component one tick later: the upload of `ExampleView` is queued. -/
def ExamplePending : UVaQuoleUIComponent :=
  { ExampleReady with
    PageCalls := ExampleReady.PageCalls ++
      [PageCall.IsPendingVisualEvents, PageCall.GrabView, PageCall.MouseMove 0 0],
    RenderQueue := [RenderCommand.UpdateVaQuoleTexture
      { Width := 2, Height := 1, StrideBytes := 4, Bytes := ExampleView } 3 8] }

/-- The steps that lead to `ExamplePending`. -/
def ExamplePendingOps : List Op := ExampleReadyOps ++ [Op.TickComponent false ExampleView]

/-! ## String search -/

theorem StartsWithIgnoreCase_nil_right {f : FString} (hf : f ≠ []) :
    StartsWithIgnoreCase f [] = false := by
  cases f with
  | nil => exact absurd rfl hf
  | cons a f => rfl

/-- The search `Stristr` finds nothing exactly when no tail of the text starts with the searched
text. -/
theorem Stristr_eq_none_iff (f : FString) (hf : f ≠ []) (str : FString) :
    Stristr str f = none ↔
      ∀ pre post, str = pre ++ post → StartsWithIgnoreCase f post = false := by
  induction str with
  | nil =>
    constructor
    · intro _ pre post h
      have : post = [] := by
        cases pre with
        | nil => simpa using h.symm
        | cons a pre => simp at h
      subst this
      exact StartsWithIgnoreCase_nil_right hf
    · intro _; rfl
  | cons c cs ih =>
    constructor
    · intro h pre post hpp
      unfold Stristr at h
      split at h
      · simp at h
      · rename_i hsw
        have hcs : Stristr cs f = none := by
          cases hq : Stristr cs f with
          | none => rfl
          | some k => rw [hq] at h; simp at h
        cases pre with
        | nil =>
          simp at hpp
          subst hpp
          simpa using hsw
        | cons a pre =>
          simp at hpp
          exact (ih.mp hcs) pre post hpp.2
    · intro h
      have h0 : StartsWithIgnoreCase f (c :: cs) = false := h [] (c :: cs) rfl
      have hcs : Stristr cs f = none :=
        ih.mpr (fun pre post hpp => h (c :: pre) post (by simp [hpp]))
      unfold Stristr
      simp [h0, hcs]

theorem Stristr_of_startsWith (f str : FString) (h : StartsWithIgnoreCase f str = true)
    (hf : f ≠ []) : Stristr str f = some 0 := by
  cases str with
  | nil => rw [StartsWithIgnoreCase_nil_right hf] at h; simp at h
  | cons c cs => unfold Stristr; simp [h]

theorem ReplaceLoop_of_none (From To : FString) (fuel : Nat) (Travel : FString)
    (h : Stristr Travel From = none) : ReplaceLoop From To fuel Travel = Travel := by
  cases fuel with
  | zero => rfl
  | succ n => simp [ReplaceLoop, h]

theorem VaQuoleScheme_ne_nil : VaQuoleScheme ≠ [] := by decide

/-- The target for a URL that starts with the scheme and holds no further occurrence. -/
theorem OpenURLTarget_leading (H : Host) (URL : FString)
    (h1 : StartsWithIgnoreCase VaQuoleScheme URL = true)
    (h2 : ∀ pre post, URL.drop VaQuoleScheme.length = pre ++ post →
      StartsWithIgnoreCase VaQuoleScheme post = false) :
    OpenURLTarget H URL = FileScheme ++ (H.GameDir ++ URL.drop VaQuoleScheme.length) := by
  have hfind := Stristr_of_startsWith _ _ h1 VaQuoleScheme_ne_nil
  have hrest := (Stristr_eq_none_iff _ VaQuoleScheme_ne_nil _).mpr h2
  have hne : URL ≠ [] := by
    intro h; subst h; simp [Stristr] at hfind
  obtain ⟨c, cs, rfl⟩ := List.exists_cons_of_ne_nil hne
  simp only [OpenURLTarget, Contains, hfind, Option.isSome_some, if_true]
  simp only [Replace, List.length_cons, ReplaceLoop, hfind]
  simp only [VaQuoleScheme_ne_nil, or_self, if_false, reduceCtorEq]
  rw [Nat.zero_add, ReplaceLoop_of_none _ _ _ _ hrest]
  simp

/-- The target for a URL that holds no occurrence of the scheme. -/
theorem OpenURLTarget_absent (H : Host) (URL : FString)
    (h : ∀ pre post, URL = pre ++ post → StartsWithIgnoreCase VaQuoleScheme post = false) :
    OpenURLTarget H URL = URL := by
  have := (Stristr_eq_none_iff _ VaQuoleScheme_ne_nil _).mpr h
  simp [OpenURLTarget, Contains, this]

theorem NewPageCalls_of_append (s s1 : UVaQuoleUIComponent) (l : List PageCall)
    (h : s1.PageCalls = s.PageCalls ++ l) : NewPageCalls s s1 = l := by
  simp [NewPageCalls, h]

/-! ## `OpenURL` -/

/-- C1 (amended): on an enabled component with a page, `OpenURL` of a URL that begins with the
scheme `vaquole://` (matched ignoring case) and holds no further occurrence of it makes exactly
one open call, whose target is the marker `file:///` followed by the path of the project root
followed by the URL without its leading scheme. -/
theorem OpenURL_leading_scheme (H : Host) (s : UVaQuoleUIComponent) (URL : FString)
    (hen : s.bEnabled = true) (hpage : s.WebPage = true)
    (h1 : StartsWithIgnoreCase VaQuoleScheme URL = true)
    (h2 : ∀ pre post, URL.drop VaQuoleScheme.length = pre ++ post →
      StartsWithIgnoreCase VaQuoleScheme post = false) :
    NewPageCalls s (OpenURL H s URL) =
      [PageCall.OpenURL (FileScheme ++ (H.GameDir ++ URL.drop VaQuoleScheme.length))] := by
  apply NewPageCalls_of_append
  simp [OpenURL, hen, hpage, OpenURLTarget_leading H URL h1 h2]

/-- The example of C1: with the root path `/proj/`, `vaquole://foo/bar.html` is opened as
`file:////proj/foo/bar.html`, in one call. -/
theorem OpenURL_leading_scheme_witness :
    ExampleActive.bEnabled = true ∧ ExampleActive.WebPage = true ∧
    StartsWithIgnoreCase VaQuoleScheme "vaquole://foo/bar.html".toList = true ∧
    NewPageCalls ExampleActive (OpenURL ExampleHost ExampleActive "vaquole://foo/bar.html".toList)
      = [PageCall.OpenURL "file:////proj/foo/bar.html".toList] :=
  ⟨rfl, rfl, by decide,
    OpenURL_leading_scheme ExampleHost ExampleActive "vaquole://foo/bar.html".toList rfl rfl
      (by decide) ((Stristr_eq_none_iff _ VaQuoleScheme_ne_nil _).mp (by decide))⟩

/-- C1 fails as stated: `vaquole://a/vaquole://b` begins with the scheme, yet the target is not
the root path followed by the rest of the URL, because the second occurrence is replaced too. -/
theorem OpenURL_leading_scheme_counterexample :
    StartsWithIgnoreCase VaQuoleScheme "vaquole://a/vaquole://b".toList = true ∧
    NewPageCalls ExampleActive (OpenURL ExampleHost ExampleActive "vaquole://a/vaquole://b".toList)
      = [PageCall.OpenURL "file:////proj/a//proj/b".toList] ∧
    NewPageCalls ExampleActive (OpenURL ExampleHost ExampleActive "vaquole://a/vaquole://b".toList)
      ≠ [PageCall.OpenURL (FileScheme ++ (ExampleHost.GameDir ++
          "vaquole://a/vaquole://b".toList.drop VaQuoleScheme.length))] := by
  decide

/-- With the root path written without its final separator the example of C1 reads
`file:////projfoo/bar.html`: the substitution is textual. -/
theorem OpenURL_root_without_separator :
    OpenURLTarget { ExampleHost with GameDir := "/proj".toList } "vaquole://foo/bar.html".toList
      = "file:////projfoo/bar.html".toList := by
  decide

/-- C2 (amended): on an enabled component with a page, `OpenURL` of a URL that holds no
occurrence of the scheme `vaquole://` (ignoring case) anywhere makes exactly one open call, with
that URL unchanged. -/
theorem OpenURL_without_scheme (H : Host) (s : UVaQuoleUIComponent) (URL : FString)
    (hen : s.bEnabled = true) (hpage : s.WebPage = true)
    (h : ∀ pre post, URL = pre ++ post → StartsWithIgnoreCase VaQuoleScheme post = false) :
    NewPageCalls s (OpenURL H s URL) = [PageCall.OpenURL URL] := by
  apply NewPageCalls_of_append
  simp [OpenURL, hen, hpage, OpenURLTarget_absent H URL h]

theorem OpenURL_without_scheme_witness :
    ExampleActive.bEnabled = true ∧ ExampleActive.WebPage = true ∧
    NewPageCalls ExampleActive (OpenURL ExampleHost ExampleActive "http://html5test.com".toList)
      = [PageCall.OpenURL "http://html5test.com".toList] :=
  ⟨rfl, rfl,
    OpenURL_without_scheme ExampleHost ExampleActive "http://html5test.com".toList rfl rfl
      ((Stristr_eq_none_iff _ VaQuoleScheme_ne_nil _).mp (by decide))⟩

/-- C2 fails as stated: `http://a/vaquole://b` does not begin with the scheme and only holds
it later, yet it is not handed on unchanged. -/
theorem OpenURL_without_scheme_counterexample :
    StartsWithIgnoreCase VaQuoleScheme "http://a/vaquole://b".toList = false ∧
    NewPageCalls ExampleActive (OpenURL ExampleHost ExampleActive "http://a/vaquole://b".toList)
      = [PageCall.OpenURL "file:///http://a//proj/b".toList] ∧
    NewPageCalls ExampleActive (OpenURL ExampleHost ExampleActive "http://a/vaquole://b".toList)
      ≠ [PageCall.OpenURL "http://a/vaquole://b".toList] := by
  decide

/-! ## Ticks and the enabled flag -/

/-- C7: in a tick in which the page reports pending visual events, `UpdateUITexture` makes no
`GrabView` call and queues no command, whatever the state; the same holds of the whole tick. -/
theorem UpdateUITexture_pending (s : UVaQuoleUIComponent) (View : List Nat) :
    PageCall.GrabView ∉ NewPageCalls s (UpdateUITexture s true View) ∧
    (UpdateUITexture s true View).RenderQueue = s.RenderQueue ∧
    PageCall.GrabView ∉ NewPageCalls s (TickComponent s true View) ∧
    (TickComponent s true View).RenderQueue = s.RenderQueue := by
  unfold TickComponent UpdateMousePosition UpdateUITexture NewPageCalls
  cases hen : s.bEnabled <;> cases hpage : s.WebPage <;> simp [hen, hpage]

/-- C8: while the component is disabled, `OpenURL`, `EvaluateJavaScript` and
`UpdateMousePosition` (for every stored mouse position), and with them the whole tick, leave the
state unchanged, and so make no call into the page. -/
theorem disabled_makes_no_page_call (H : Host) (s : UVaQuoleUIComponent)
    (URL ScriptSource : FString) (X Y : Int) (p : Bool) (View : List Nat)
    (h : s.bEnabled = false) :
    OpenURL H s URL = s ∧ EvaluateJavaScript s ScriptSource = s ∧ UpdateMousePosition s = s ∧
    UpdateMousePosition (SetMousePosition s X Y) = SetMousePosition s X Y ∧
    TickComponent s p View = s ∧
    NewPageCalls s (OpenURL H s URL) = [] ∧
    NewPageCalls s (EvaluateJavaScript s ScriptSource) = [] ∧
    NewPageCalls s (UpdateMousePosition s) = [] ∧
    NewPageCalls s (UpdateMousePosition (SetMousePosition s X Y)) = [] ∧
    NewPageCalls s (TickComponent s p View) = [] := by
  simp [OpenURL, EvaluateJavaScript, UpdateMousePosition, SetMousePosition, TickComponent,
    UpdateUITexture, NewPageCalls, h]

theorem disabled_makes_no_page_call_witness :
    ExampleDisabled.bEnabled = false ∧
    OpenURL ExampleHost ExampleDisabled "vaquole://foo/bar.html".toList = ExampleDisabled ∧
    EvaluateJavaScript ExampleDisabled "alert(1)".toList = ExampleDisabled ∧
    UpdateMousePosition (SetMousePosition ExampleDisabled 3 4) =
      SetMousePosition ExampleDisabled 3 4 :=
  have h := disabled_makes_no_page_call ExampleHost ExampleDisabled
    "vaquole://foo/bar.html".toList "alert(1)".toList 3 4 false [] rfl
  ⟨rfl, h.1, h.2.1, h.2.2.2.1⟩

/-! ## Memory and the rendering thread -/

theorem Memcpy_length (dst src : List Nat) (n : Nat) : (Memcpy dst src n).length = dst.length := by
  induction dst generalizing src n with
  | nil => simp [Memcpy]
  | cons d ds ih =>
    cases n with
    | zero => simp [Memcpy]
    | succ n =>
      cases src with
      | nil => simp [Memcpy, ih]
      | cons b bs => simp [Memcpy, ih]

theorem Unreleased_map (f : FTexture2DResource → FTexture2DResource)
    (hf : ∀ r, (f r).Released = r.Released) (R : List FTexture2DResource) :
    Unreleased (R.map f) = (Unreleased R).map f := by
  induction R with
  | nil => rfl
  | cons r R ih =>
    simp only [Unreleased, List.map_cons, List.filter_cons] at ih ⊢
    rw [hf r]
    split <;> simp [ih]

theorem Unreleased_append (R R1 : List FTexture2DResource) :
    Unreleased (R ++ R1) = Unreleased R ++ Unreleased R1 := by
  simp [Unreleased]

theorem IsLive_eq (R : List FTexture2DResource) (t : Nat) :
    IsLive R t = (Unreleased R).any (fun r => r.Id == t && r.Texture2DRHI.isSome) := by
  induction R with
  | nil => rfl
  | cons r R ih =>
    simp only [IsLive, Unreleased, List.any_cons, List.filter_cons] at ih ⊢
    cases hr : r.Released <;> simp [ih]

theorem Benign_init (res : Nat) :
    Benign (fun r => if (r.Id == res && !r.Released && r.Texture2DRHI.isNone) = true
        then { r with Texture2DRHI := some (NewStorage r.SizeX r.SizeY) } else r) := by
  constructor
  · intro r; dsimp only; split <;> rfl
  · intro r; dsimp only; split <;> rfl
  · intro r; dsimp only; split <;> rfl
  · intro r; dsimp only; split <;> rfl
  · intro r h; dsimp only; split
    · rfl
    · exact h
  · intro r N _ hN hlen st; dsimp only; split
    · intro h
      simp only [Option.some.injEq] at h
      subst h
      simp [NewStorage, hN]
    · exact hlen st

theorem Benign_upload (ImageData : FVaQuoleTextureData) (t : Nat) :
    Benign (fun r => if (r.Id == t && !r.Released) = true
        then { r with Texture2DRHI := r.Texture2DRHI.map (CopyInto ImageData) } else r) := by
  constructor
  · intro r; dsimp only; split <;> rfl
  · intro r; dsimp only; split <;> rfl
  · intro r; dsimp only; split <;> rfl
  · intro r; dsimp only; split <;> rfl
  · intro r h; dsimp only; split
    · simpa using h
    · exact h
  · intro r N _ _ hlen st; dsimp only; split
    · intro h
      simp only [Option.map_eq_some'] at h
      obtain ⟨st0, h0, rfl⟩ := h
      simp [CopyInto, Memcpy_length, hlen st0 h0]
    · exact hlen st

/-- A benign change of the resources keeps the invariant of the rendering thread, for any
shorter queue. -/
theorem RenderInv_map (f : FTexture2DResource → FTexture2DResource) (hf : Benign f)
    (rid : Nat) (W H : Int) (R : List FTexture2DResource) (Q Q1 : List RenderCommand)
    (hQ : ∀ c ∈ Q1, c ∈ Q) (h : RenderInv rid W H R Q) : RenderInv rid W H (R.map f) Q1 := by
  obtain ⟨r, hU, hid, hx, hy, hlen, hq⟩ := h
  have hrel : r.Released = false := by
    have : r ∈ Unreleased R := by rw [hU]; simp
    simpa [Unreleased] using (List.mem_filter.mp this).2
  refine ⟨f r, ?_, ?_, ?_, ?_, ?_, ?_⟩
  · rw [Unreleased_map f hf.released, hU]; rfl
  · rw [hf.id, hid]
  · rw [hf.sizeX, hx]
  · rw [hf.sizeY, hy]
  · exact hf.len r _ hrel (by rw [hx, hy]) hlen
  · intro c hc
    rcases hq c (hQ c hc) with h1 | ⟨img, n, h1, h2⟩
    · exact Or.inl h1
    · exact Or.inr ⟨img, n, h1, hf.rhi r h2⟩

theorem RenderInv_mono (rid : Nat) (W H : Int) (R : List FTexture2DResource)
    (Q Q1 : List RenderCommand) (hQ : ∀ c ∈ Q1, c ∈ Q) (h : RenderInv rid W H R Q) :
    RenderInv rid W H R Q1 := by
  obtain ⟨r, hU, hid, hx, hy, hlen, hq⟩ := h
  exact ⟨r, hU, hid, hx, hy, hlen, fun c hc => hq c (hQ c hc)⟩

/-- One queued command, executed: the invariant of the rendering thread is kept and the log
grows by the event of the command. -/
theorem Execute_queued (H : Host) (rid : Nat) (W Hh : Int) (R : List FTexture2DResource)
    (L : List RenderEvent) (c : RenderCommand) (Q : List RenderCommand)
    (h : RenderInv rid W Hh R (c :: Q)) :
    RenderInv rid W Hh (Execute H R L c).1 Q ∧ (Execute H R L c).2 = L ++ [EventOf H c] := by
  have hQ : ∀ c1 ∈ Q, c1 ∈ c :: Q := fun c1 hc1 => List.mem_cons_of_mem _ hc1
  obtain ⟨r, hU, hid, hx, hy, hlen, hq⟩ := id h
  rcases hq c (List.mem_cons_self _ _) with hc | ⟨img, n, hc, hsome⟩
  · subst hc
    exact ⟨RenderInv_map _ (Benign_init rid) rid W Hh R _ Q hQ h, rfl⟩
  · subst hc
    have hlive : IsLive R rid = true := by
      rw [IsLive_eq, hU]; simp [hid, hsome]
    cases hlock : H.RHILockTexture2D rid
    · simp only [Execute, hlock, hlive, EventOf, UploadEvent, Bool.not_true, Bool.false_eq_true,
        if_false]
      exact ⟨RenderInv_mono rid W Hh R _ Q hQ h, trivial⟩
    · simp only [Execute, hlock, hlive, EventOf, UploadEvent, Bool.not_true, Bool.false_eq_true,
        if_false, if_true]
      exact ⟨RenderInv_map _ (Benign_upload img rid) rid W Hh R _ Q hQ h, trivial⟩

theorem ExecuteAll_append (H : Host) (Q Q1 : List RenderCommand)
    (RL : List FTexture2DResource × List RenderEvent) :
    ExecuteAll H (Q ++ Q1) RL = ExecuteAll H Q1 (ExecuteAll H Q RL) := by
  induction Q generalizing RL with
  | nil => rfl
  | cons c Q ih => simp [ExecuteAll, ih]

/-- All queued commands, executed: the invariant of the rendering thread is kept and the log
grows by the events of the commands, in order. -/
theorem ExecuteAll_queued_then (H : Host) (rid : Nat) (W Hh : Int) (Q Q1 : List RenderCommand)
    (R : List FTexture2DResource) (L : List RenderEvent) (h : RenderInv rid W Hh R (Q ++ Q1)) :
    RenderInv rid W Hh (ExecuteAll H Q (R, L)).1 Q1 ∧
      (ExecuteAll H Q (R, L)).2 = L ++ Q.map (EventOf H) := by
  induction Q generalizing R L with
  | nil => exact ⟨h, by simp [ExecuteAll]⟩
  | cons c Q ih =>
    obtain ⟨h1, h2⟩ := Execute_queued H rid W Hh R L c (Q ++ Q1) h
    obtain ⟨h3, h4⟩ := ih (Execute H R L c).1 (Execute H R L c).2 h1
    refine ⟨h3, ?_⟩
    show (ExecuteAll H Q ((Execute H R L c).1, (Execute H R L c).2)).2 = _
    rw [h4, h2]; simp

theorem ExecuteAll_queued (H : Host) (rid : Nat) (W Hh : Int) (Q : List RenderCommand)
    (R : List FTexture2DResource) (L : List RenderEvent) (h : RenderInv rid W Hh R Q) :
    RenderInv rid W Hh (ExecuteAll H Q (R, L)).1 [] ∧
      (ExecuteAll H Q (R, L)).2 = L ++ Q.map (EventOf H) :=
  ExecuteAll_queued_then H rid W Hh Q [] R L (by rw [List.append_nil]; exact h)

theorem Unreleased_release (rid : Nat) (R : List FTexture2DResource) :
    Unreleased (R.map (fun r => if (r.Id == rid) = true
        then { r with Texture2DRHI := none, Released := true } else r)) =
      (Unreleased R).filter (fun r => !(r.Id == rid)) := by
  induction R with
  | nil => rfl
  | cons r R ih =>
    simp only [Unreleased, List.map_cons, List.filter_cons] at ih ⊢
    cases hid : (r.Id == rid) <;> cases hr : r.Released <;>
      simp only [hid, hr, Bool.false_eq_true, if_false, if_true, Bool.not_false, Bool.not_true,
        ih, List.filter_cons]

/-- The release of the current resource, executed on an empty queue: no resource is left
unreleased. -/
theorem Execute_release (H : Host) (rid : Nat) (W Hh : Int) (R : List FTexture2DResource)
    (L : List RenderEvent) (h : RenderInv rid W Hh R []) :
    Unreleased (Execute H R L (RenderCommand.ReleaseResource rid)).1 = [] ∧
      (Execute H R L (RenderCommand.ReleaseResource rid)).2 =
        L ++ [RenderEvent.ReleaseRHI rid] := by
  obtain ⟨r, hU, hid, _⟩ := h
  refine ⟨?_, rfl⟩
  simp only [Execute]
  rw [Unreleased_release, hU]
  simp [hid]

/-- The events of queued commands hold no stale write and no release. -/
theorem EventOf_queued (H : Host) (rid : Nat) (W Hh : Int) (R : List FTexture2DResource)
    (Q : List RenderCommand) (h : RenderInv rid W Hh R Q) :
    (∀ t, RenderEvent.StaleAccess t ∉ Q.map (EventOf H)) ∧
    (∀ t, RenderEvent.ReleaseRHI t ∉ Q.map (EventOf H)) := by
  obtain ⟨r, _, _, _, _, _, hq⟩ := h
  constructor <;>
  · intro t ht
    obtain ⟨c, hc, he⟩ := List.mem_map.mp ht
    rcases hq c hc with h1 | ⟨img, n, h1, _⟩
    · subst h1; simp [EventOf] at he
    · subst h1
      simp only [EventOf, UploadEvent] at he
      split at he <;> simp at he

/-! ## `DestroyUITexture` -/

theorem DestroyUITexture_none (H : Host) (s : UVaQuoleUIComponent) (h : s.Texture = none) :
    DestroyUITexture H s = s := by
  simp [DestroyUITexture, h]

theorem DestroyUITexture_some_none (H : Host) (s : UVaQuoleUIComponent) (t : UTexture2D)
    (h : s.Texture = some t) (hr : t.Resource = none) :
    DestroyUITexture H s =
      { s with Texture := none, LiveTextures := s.LiveTextures.erase t.Id } := by
  simp [DestroyUITexture, h, hr]

theorem DestroyUITexture_some_some (H : Host) (s : UVaQuoleUIComponent) (t : UTexture2D)
    (rid : Nat) (h : s.Texture = some t) (hr : t.Resource = some rid) :
    DestroyUITexture H s =
      { s with
        Texture := none, LiveTextures := s.LiveTextures.erase t.Id, RenderQueue := [],
        Resources := (ExecuteAll H (s.RenderQueue ++ [RenderCommand.ReleaseResource rid])
          (s.Resources, s.RenderLog)).1,
        RenderLog := (ExecuteAll H (s.RenderQueue ++ [RenderCommand.ReleaseResource rid])
          (s.Resources, s.RenderLog)).2 } := by
  simp [DestroyUITexture, h, hr, FlushRenderingCommands, BeginReleaseResource]

/-- What `DestroyUITexture` does not touch. -/
theorem DestroyUITexture_frame (H : Host) (s : UVaQuoleUIComponent) :
    (DestroyUITexture H s).Width = s.Width ∧ (DestroyUITexture H s).Height = s.Height ∧
    (DestroyUITexture H s).bEnabled = s.bEnabled ∧ (DestroyUITexture H s).WebPage = s.WebPage ∧
    (DestroyUITexture H s).PageCalls = s.PageCalls ∧
    (DestroyUITexture H s).MaxLiveTextures = s.MaxLiveTextures ∧
    (DestroyUITexture H s).Texture = none := by
  cases h : s.Texture with
  | none => rw [DestroyUITexture_none H s h]; simp [h]
  | some t =>
    cases hr : t.Resource with
    | none => rw [DestroyUITexture_some_none H s t h hr]; simp
    | some rid => rw [DestroyUITexture_some_some H s t rid h hr]; simp

/-- The flush inside `DestroyUITexture`: the queued commands run, in order, against the live
resource, then the resource is released. -/
theorem ExecuteAll_release (H : Host) (rid : Nat) (W Hh : Int) (Q : List RenderCommand)
    (R : List FTexture2DResource) (L : List RenderEvent) (h : RenderInv rid W Hh R Q) :
    Unreleased (ExecuteAll H (Q ++ [RenderCommand.ReleaseResource rid]) (R, L)).1 = [] ∧
    (ExecuteAll H (Q ++ [RenderCommand.ReleaseResource rid]) (R, L)).2 =
      L ++ Q.map (EventOf H) ++ [RenderEvent.ReleaseRHI rid] := by
  rw [ExecuteAll_append]
  obtain ⟨h1, h2⟩ := ExecuteAll_queued H rid W Hh Q R L h
  obtain ⟨h3, h4⟩ := Execute_release H rid W Hh _ (ExecuteAll H Q (R, L)).2 h1
  simp only [ExecuteAll]
  exact ⟨h3, by rw [h4, h2]⟩

/-- The invariant is kept by `DestroyUITexture`, which leaves no texture, no live texture
object, no unreleased render resource and no queued command. -/
theorem DestroyUITexture_inv (H : Host) (s : UVaQuoleUIComponent) (h : TextureInv s) :
    TextureInv (DestroyUITexture H s) ∧ (DestroyUITexture H s).LiveTextures = [] ∧
    Unreleased (DestroyUITexture H s).Resources = [] ∧
    (DestroyUITexture H s).RenderQueue = [] := by
  cases ht : s.Texture with
  | none =>
    rw [DestroyUITexture_none H s ht]
    have hc : CurrentResource s = none := by simp [CurrentResource, ht]
    have hl := h.live
    rw [ht] at hl
    exact ⟨h, by simpa using hl, (h.resNone hc).1, (h.resNone hc).2⟩
  | some t =>
    have hl := h.live
    rw [ht] at hl
    simp only [Option.map_some', Option.toList_some] at hl
    cases hr : t.Resource with
    | none =>
      have hc : CurrentResource s = none := by simp [CurrentResource, ht, hr]
      rw [DestroyUITexture_some_none H s t ht hr]
      refine ⟨⟨?_, h.maxLive, ?_, ?_, ?_, h.log⟩, ?_, (h.resNone hc).1, (h.resNone hc).2⟩
      · simp [hl]
      · intro t1 h1; simp at h1
      · intro _; exact h.resNone hc
      · intro t1 rid1 h1; simp at h1
      · simp [hl]
    | some rid =>
      rw [DestroyUITexture_some_some H s t rid ht hr]
      obtain ⟨h1, h2⟩ := ExecuteAll_release H rid _ _ s.RenderQueue s.Resources s.RenderLog
        (h.resSome t rid ht hr)
      obtain ⟨h3, _⟩ :=
        EventOf_queued H rid _ _ s.Resources s.RenderQueue (h.resSome t rid ht hr)
      refine ⟨⟨?_, h.maxLive, ?_, ?_, ?_, ?_⟩, ?_, h1, rfl⟩
      · simp [hl]
      · intro t1 h1; simp at h1
      · intro _; exact ⟨h1, rfl⟩
      · intro t1 rid1 h1; simp at h1
      · intro x hx
        simp only [h2, List.mem_append, List.mem_singleton, reduceCtorEq, or_false] at hx
        rcases hx with hx | hx
        · exact h.log x hx
        · exact h3 x hx
      · simp [hl]

/-! ## `ResetUITexture` and `Resize` -/

theorem TextureInv_congr (s s1 : UVaQuoleUIComponent) (h1 : s1.Texture = s.Texture)
    (h2 : s1.LiveTextures = s.LiveTextures) (h3 : s1.MaxLiveTextures = s.MaxLiveTextures)
    (h4 : s1.Resources = s.Resources) (h5 : s1.RenderQueue = s.RenderQueue)
    (h6 : s1.RenderLog = s.RenderLog) (h : TextureInv s) : TextureInv s1 := by
  constructor
  · rw [h1, h2]; exact h.live
  · rw [h3]; exact h.maxLive
  · rw [h1]; exact h.pos
  · rw [h4, h5]; unfold CurrentResource; rw [h1]; exact h.resNone
  · rw [h1, h4, h5]; exact h.resSome
  · rw [h6]; exact h.log

theorem Inv_congr (s s1 : UVaQuoleUIComponent) (h1 : s1.Texture = s.Texture)
    (h2 : s1.LiveTextures = s.LiveTextures) (h3 : s1.MaxLiveTextures = s.MaxLiveTextures)
    (h4 : s1.Resources = s.Resources) (h5 : s1.RenderQueue = s.RenderQueue)
    (h6 : s1.RenderLog = s.RenderLog) (h7 : s1.Width = s.Width) (h8 : s1.Height = s.Height)
    (h : Inv s) : Inv s1 :=
  ⟨TextureInv_congr s s1 h1 h2 h3 h4 h5 h6 h.1, by rw [h1, h7, h8]; exact h.2⟩

theorem ResetMaterialInstance_frame (H : Host) (s : UVaQuoleUIComponent) :
    ∃ m, ResetMaterialInstance H s = { s with MaterialInstance := m } := by
  unfold ResetMaterialInstance
  split
  · exact ⟨s.MaterialInstance, rfl⟩
  · split
    · exact ⟨s.MaterialInstance, rfl⟩
    · split
      · exact ⟨_, rfl⟩
      · split <;> exact ⟨_, rfl⟩

/-- Without positive sizes `CreateTransient` gives no texture and `ResetUITexture` faults. -/
theorem ResetUITexture_fault (H : Host) (s : UVaQuoleUIComponent)
    (h : ¬ (0 < s.Width ∧ 0 < s.Height)) : ResetUITexture H s = none := by
  have hf := DestroyUITexture_frame H s
  simp only [ResetUITexture, CreateTransient, hf.1, hf.2.1, h, if_false]

theorem ResetMaterialInstance_proj (H : Host) (s : UVaQuoleUIComponent) :
    (ResetMaterialInstance H s).Texture = s.Texture ∧
    (ResetMaterialInstance H s).LiveTextures = s.LiveTextures ∧
    (ResetMaterialInstance H s).MaxLiveTextures = s.MaxLiveTextures ∧
    (ResetMaterialInstance H s).Resources = s.Resources ∧
    (ResetMaterialInstance H s).RenderQueue = s.RenderQueue ∧
    (ResetMaterialInstance H s).RenderLog = s.RenderLog ∧
    (ResetMaterialInstance H s).Width = s.Width ∧
    (ResetMaterialInstance H s).Height = s.Height ∧
    (ResetMaterialInstance H s).bEnabled = s.bEnabled ∧
    (ResetMaterialInstance H s).WebPage = s.WebPage ∧
    (ResetMaterialInstance H s).PageCalls = s.PageCalls := by
  obtain ⟨m, hm⟩ := ResetMaterialInstance_frame H s
  rw [hm]
  simp

theorem Inv_ResetMaterialInstance (H : Host) (s : UVaQuoleUIComponent) (h : Inv s) :
    Inv (ResetMaterialInstance H s) := by
  obtain ⟨h1, h2, h3, h4, h5, h6, h7, h8, _⟩ := ResetMaterialInstance_proj H s
  exact Inv_congr s _ h1 h2 h3 h4 h5 h6 h7 h8 h

/-- With positive sizes `ResetUITexture` returns, and leaves one texture of the component's
size. -/
theorem ResetUITexture_ok (H : Host) (s : UVaQuoleUIComponent) (hw : 0 < s.Width)
    (hh : 0 < s.Height) (h : TextureInv s) :
    ∃ s1 t, ResetUITexture H s = some s1 ∧ Inv s1 ∧ s1.Texture = some t ∧
      t.SizeX = s.Width ∧ t.SizeY = s.Height ∧ s1.LiveTextures = [t.Id] ∧
      s1.Width = s.Width ∧ s1.Height = s.Height ∧ s1.bEnabled = s.bEnabled ∧
      s1.WebPage = s.WebPage ∧ s1.PageCalls = s.PageCalls := by
  obtain ⟨hW, hH, hE, hP, hC, hM, hT⟩ := DestroyUITexture_frame H s
  obtain ⟨hinv, hlive, hun, hq⟩ := DestroyUITexture_inv H s h
  simp only [ResetUITexture]
  generalize DestroyUITexture H s = d at *
  have hpos : 0 < d.Width ∧ 0 < d.Height := by rw [hW, hH]; exact ⟨hw, hh⟩
  have hmax := hinv.maxLive
  have hlog := hinv.log
  simp only [CreateTransient, hpos, and_self, if_true]
  cases hcr : H.CanEverRender
  · refine ⟨_, { Id := d.NextId, SizeX := d.Width, SizeY := d.Height, InRoot := true,
                 Resource := none }, rfl,
      Inv_ResetMaterialInstance _ _ ⟨⟨?_, ?_, ?_, ?_, ?_, ?_⟩, ?_⟩, ?_⟩
    · simp [UpdateResource, hcr, hlive]
    · simp [UpdateResource, hcr, hlive, hmax]
    · simp [UpdateResource, hcr, hpos]
    · intro _; simp [UpdateResource, hcr, hun, hq]
    · intro t rid h1 h2
      simp only [UpdateResource, hcr, Bool.false_eq_true, if_false, Option.some.injEq] at h1
      subst h1
      simp at h2
    · simpa [UpdateResource, hcr] using hlog
    · simp [UpdateResource, hcr]
    · obtain ⟨h1, h2, _, _, _, _, h7, h8, h9, h10, h11⟩ := ResetMaterialInstance_proj H
        (UpdateResource H
          { d with
            LiveTextures := d.LiveTextures ++ [d.NextId],
            MaxLiveTextures := max d.MaxLiveTextures (d.LiveTextures.length + 1),
            NextId := d.NextId + 1,
            Texture := some { Id := d.NextId, SizeX := d.Width, SizeY := d.Height, InRoot := true,
                              Resource := none } }
          { Id := d.NextId, SizeX := d.Width, SizeY := d.Height, InRoot := true, Resource := none })
      rw [h1, h2, h7, h8, h9, h10, h11]
      simp [UpdateResource, hcr, hlive, hW, hH, hE, hP, hC]
  · refine ⟨_, { Id := d.NextId, SizeX := d.Width, SizeY := d.Height, InRoot := true,
                 Resource := some (d.NextId + 1) }, rfl,
      Inv_ResetMaterialInstance _ _ ⟨⟨?_, ?_, ?_, ?_, ?_, ?_⟩, ?_⟩, ?_⟩
    · simp [UpdateResource, hcr, hlive]
    · simp [UpdateResource, hcr, hlive, hmax]
    · simp [UpdateResource, hcr, hpos]
    · intro hc; simp [UpdateResource, hcr, CurrentResource] at hc
    · intro t rid h1 h2
      simp only [UpdateResource, hcr, if_true, Option.some.injEq] at h1
      subst h1
      simp only [Option.some.injEq] at h2
      subst h2
      simp only [UpdateResource, hcr, if_true, hq, List.nil_append]
      refine ⟨{ Id := d.NextId + 1, SizeX := d.Width, SizeY := d.Height, Texture2DRHI := none,
                Released := false }, ?_, rfl, rfl, rfl, ?_, ?_⟩
      · rw [Unreleased_append, hun]; rfl
      · intro st hst; simp at hst
      · intro c hc
        simp only [List.mem_singleton] at hc
        exact Or.inl hc
    · simpa [UpdateResource, hcr] using hlog
    · simp [UpdateResource, hcr]
    · obtain ⟨h1, h2, _, _, _, _, h7, h8, h9, h10, h11⟩ := ResetMaterialInstance_proj H
        (UpdateResource H
          { d with
            LiveTextures := d.LiveTextures ++ [d.NextId],
            MaxLiveTextures := max d.MaxLiveTextures (d.LiveTextures.length + 1),
            NextId := d.NextId + 1,
            Texture := some { Id := d.NextId, SizeX := d.Width, SizeY := d.Height, InRoot := true,
                              Resource := none } }
          { Id := d.NextId, SizeX := d.Width, SizeY := d.Height, InRoot := true, Resource := none })
      rw [h1, h2, h7, h8, h9, h10, h11]
      simp [UpdateResource, hcr, hlive, hW, hH, hE, hP, hC]

theorem Resize_fault (H : Host) (s : UVaQuoleUIComponent) (w h : Int)
    (hwh : ¬ (0 < w ∧ 0 < h)) : Resize H s w h = none := by
  unfold Resize
  apply ResetUITexture_fault
  cases s.WebPage <;> simpa using hwh

theorem Resize_ok (H : Host) (s : UVaQuoleUIComponent) (w h : Int) (hw : 0 < w) (hh : 0 < h)
    (hinv : TextureInv s) :
    ∃ s1 t, Resize H s w h = some s1 ∧ Inv s1 ∧ s1.Texture = some t ∧
      t.SizeX = w ∧ t.SizeY = h ∧ s1.LiveTextures = [t.Id] ∧
      s1.Width = w ∧ s1.Height = h ∧ s1.bEnabled = s.bEnabled ∧ s1.WebPage = s.WebPage := by
  have hR : ∃ s0, Resize H s w h = ResetUITexture H s0 ∧ s0.Width = w ∧ s0.Height = h ∧
      TextureInv s0 ∧ s0.bEnabled = s.bEnabled ∧ s0.WebPage = s.WebPage := by
    unfold Resize
    dsimp only
    split
    · exact ⟨_, rfl, rfl, rfl, TextureInv_congr s _ rfl rfl rfl rfl rfl rfl hinv, rfl, rfl⟩
    · exact ⟨_, rfl, rfl, rfl, TextureInv_congr s _ rfl rfl rfl rfl rfl rfl hinv, rfl, rfl⟩
  obtain ⟨s0, h0, hW, hH, hinv0, hE, hP⟩ := hR
  obtain ⟨s1, t, h1, h2, h3, h4, h5, h6, h7, h8, h9, h10, _⟩ :=
    ResetUITexture_ok H s0 (by rw [hW]; exact hw) (by rw [hH]; exact hh) hinv0
  exact ⟨s1, t, by rw [h0, h1], h2, h3, by rw [h4, hW], by rw [h5, hH], h6, by rw [h7, hW],
    by rw [h8, hH], by rw [h9, hE], by rw [h10, hP]⟩

/-- Whatever `Resize` returns satisfies the invariant. -/
theorem Resize_inv (H : Host) (s s1 : UVaQuoleUIComponent) (w h : Int) (hinv : TextureInv s)
    (hs : Resize H s w h = some s1) : Inv s1 := by
  by_cases hwh : 0 < w ∧ 0 < h
  · obtain ⟨s2, t, h1, h2, _⟩ := Resize_ok H s w h hwh.1 hwh.2 hinv
    rw [h1] at hs
    simp only [Option.some.injEq] at hs
    rw [← hs]; exact h2
  · rw [Resize_fault H s w h hwh] at hs
    simp at hs

/-! ## Ticks -/

/-- The two ways `UpdateUITexture` can go: it grabs no frame and at most asks the page for
pending visual events, or it grabs a frame and queues its upload into the live texture. -/
theorem UpdateUITexture_cases (s : UVaQuoleUIComponent) (p : Bool) (View : List Nat) :
    (UpdateUITexture s p View = s ∨
      UpdateUITexture s p View =
        { s with PageCalls := s.PageCalls ++ [PageCall.IsPendingVisualEvents] }) ∨
    (∃ t rid, s.bEnabled = true ∧ s.WebPage = true ∧ p = false ∧ s.Texture = some t ∧
      t.Resource = some rid ∧ IsLive s.Resources rid = true ∧
      UpdateUITexture s p View =
        { s with
          PageCalls := s.PageCalls ++ [PageCall.IsPendingVisualEvents, PageCall.GrabView],
          RenderQueue := s.RenderQueue ++
            [RenderCommand.UpdateVaQuoleTexture (Snapshot s View) rid
              (ToSizeT (WrapInt32 (s.Width * s.Height)) * 4 % 2 ^ 64)] }) := by
  unfold UpdateUITexture
  cases hen : s.bEnabled
  · simp
  cases hp : s.WebPage
  · simp
  cases p
  swap
  · simp
  cases ht : s.Texture with
  | none => simp
  | some t =>
    cases hr : t.Resource with
    | none => simp [hr]
    | some rid =>
      cases hl : IsLive s.Resources rid
      · simp [hr, hl]
      · right
        exact ⟨t, rid, rfl, rfl, rfl, rfl, hr, hl, by simp [hr, hl, Snapshot]⟩

theorem RenderInv_snoc (rid : Nat) (W H : Int) (R : List FTexture2DResource)
    (Q : List RenderCommand) (img : FVaQuoleTextureData) (n : Nat)
    (h : RenderInv rid W H R Q) (hl : IsLive R rid = true) :
    RenderInv rid W H R (Q ++ [RenderCommand.UpdateVaQuoleTexture img rid n]) := by
  obtain ⟨r, hU, hid, hx, hy, hlen, hq⟩ := h
  refine ⟨r, hU, hid, hx, hy, hlen, ?_⟩
  intro c hc
  rcases List.mem_append.mp hc with hc | hc
  · exact hq c hc
  · simp only [List.mem_singleton] at hc
    rw [IsLive_eq, hU] at hl
    simp only [List.any_cons, List.any_nil, Bool.or_false, Bool.and_eq_true] at hl
    exact Or.inr ⟨img, n, hc, hl.2⟩

theorem UpdateUITexture_inv (s : UVaQuoleUIComponent) (p : Bool) (View : List Nat)
    (h : Inv s) : Inv (UpdateUITexture s p View) := by
  rcases UpdateUITexture_cases s p View with (h1 | h1) | ⟨t, rid, _, _, _, ht, hr, hl, h1⟩
  · rw [h1]; exact h
  · rw [h1]; exact Inv_congr s _ rfl rfl rfl rfl rfl rfl rfl rfl h
  · rw [h1]
    refine ⟨⟨h.1.live, h.1.maxLive, h.1.pos, ?_, ?_, h.1.log⟩, h.2⟩
    · intro hc
      simp [CurrentResource, ht, hr] at hc
    · intro t1 rid1 ht1 hr1
      have ht1 : s.Texture = some t1 := ht1
      rw [ht] at ht1
      simp only [Option.some.injEq] at ht1
      subst ht1
      rw [hr] at hr1
      simp only [Option.some.injEq] at hr1
      subst hr1
      exact RenderInv_snoc _ _ _ _ _ _ _ (h.1.resSome t rid ht hr) hl

theorem RenderThreadStep_nil (H : Host) (s : UVaQuoleUIComponent) (h : s.RenderQueue = []) :
    RenderThreadStep H s = s := by
  simp [RenderThreadStep, h]

theorem RenderThreadStep_cons (H : Host) (s : UVaQuoleUIComponent) (c : RenderCommand)
    (Q : List RenderCommand) (h : s.RenderQueue = c :: Q) :
    RenderThreadStep H s =
      { s with RenderQueue := Q, Resources := (Execute H s.Resources s.RenderLog c).1,
               RenderLog := (Execute H s.Resources s.RenderLog c).2 } := by
  simp [RenderThreadStep, h]

/-- While commands are queued the component has a texture with a render resource. -/
theorem Inv_queue_nonempty (s : UVaQuoleUIComponent) (h : TextureInv s)
    (hq : s.RenderQueue ≠ []) : ∃ t rid, s.Texture = some t ∧ t.Resource = some rid := by
  rcases Option.eq_none_or_eq_some s.Texture with ht | ⟨t, ht⟩
  · exact absurd (h.resNone (by simp [CurrentResource, ht])).2 hq
  · rcases Option.eq_none_or_eq_some t.Resource with hr | ⟨rid, hr⟩
    · exact absurd (h.resNone (by simp [CurrentResource, ht, hr])).2 hq
    · exact ⟨t, rid, ht, hr⟩

theorem RenderThreadStep_inv (H : Host) (s : UVaQuoleUIComponent) (h : Inv s) :
    Inv (RenderThreadStep H s) := by
  · cases hq : s.RenderQueue with
    | nil => rw [RenderThreadStep_nil H s hq]; exact h
    | cons c Q =>
      obtain ⟨t, rid, ht, hr⟩ := Inv_queue_nonempty s h.1 (by rw [hq]; simp)
      rw [RenderThreadStep_cons H s c Q hq]
      have hR := h.1.resSome t rid ht hr
      rw [hq] at hR
      obtain ⟨h1, h2⟩ := Execute_queued H rid _ _ s.Resources s.RenderLog c Q hR
      obtain ⟨h3, _⟩ := EventOf_queued H rid _ _ s.Resources (c :: Q) hR
      refine ⟨⟨h.1.live, h.1.maxLive, h.1.pos, ?_, ?_, ?_⟩, h.2⟩
      · intro hc
        simp [CurrentResource, ht, hr] at hc
      · intro t1 rid1 ht1 hr1
        have ht1 : s.Texture = some t1 := ht1
        rw [ht] at ht1
        simp only [Option.some.injEq] at ht1
        subst ht1
        rw [hr] at hr1
        simp only [Option.some.injEq] at hr1
        subst hr1
        exact h1
      · intro x hx
        have hx : RenderEvent.StaleAccess x ∈ (Execute H s.Resources s.RenderLog c).2 := hx
        rw [h2] at hx
        rcases List.mem_append.mp hx with hx | hx
        · exact h.1.log x hx
        · rw [List.map_cons] at h3
          exact h3 x (List.mem_cons.mpr (Or.inl (by simpa using hx)))

/-! ## The invariant holds in every state of a run -/

theorem Construct_inv (BaseMaterial : Bool) : Inv (Construct BaseMaterial) := by
  refine ⟨⟨rfl, by simp [Construct], ?_, ?_, ?_, ?_⟩, ?_⟩
  · intro t h; simp [Construct] at h
  · intro _; exact ⟨rfl, rfl⟩
  · intro t rid h; simp [Construct] at h
  · intro t h; simp [Construct] at h
  · intro t h; simp [Construct] at h

theorem SetEnabled_inv (s : UVaQuoleUIComponent) (b : Bool) (h : Inv s) :
    Inv (SetEnabled s b) :=
  Inv_congr s _ rfl rfl rfl rfl rfl rfl rfl rfl h

theorem SetMousePosition_inv (s : UVaQuoleUIComponent) (X Y : Int) (h : Inv s) :
    Inv (SetMousePosition s X Y) :=
  Inv_congr s _ rfl rfl rfl rfl rfl rfl rfl rfl h

theorem SetTransparent_inv (s : UVaQuoleUIComponent) (b : Bool) (h : Inv s) :
    Inv (SetTransparent s b) := by
  unfold SetTransparent
  dsimp only
  split <;> exact Inv_congr s _ rfl rfl rfl rfl rfl rfl rfl rfl h

theorem EvaluateJavaScript_inv (s : UVaQuoleUIComponent) (src : FString) (h : Inv s) :
    Inv (EvaluateJavaScript s src) := by
  unfold EvaluateJavaScript
  split
  · exact h
  · exact Inv_congr s _ rfl rfl rfl rfl rfl rfl rfl rfl h

theorem OpenURL_inv (H : Host) (s : UVaQuoleUIComponent) (URL : FString) (h : Inv s) :
    Inv (OpenURL H s URL) := by
  unfold OpenURL
  split
  · exact h
  · exact Inv_congr s _ rfl rfl rfl rfl rfl rfl rfl rfl h

theorem UpdateMousePosition_inv (s : UVaQuoleUIComponent) (h : Inv s) :
    Inv (UpdateMousePosition s) := by
  unfold UpdateMousePosition
  split
  · exact h
  · exact Inv_congr s _ rfl rfl rfl rfl rfl rfl rfl rfl h

theorem TickComponent_inv (s : UVaQuoleUIComponent) (p : Bool) (View : List Nat) (h : Inv s) :
    Inv (TickComponent s p View) :=
  UpdateMousePosition_inv _ (UpdateUITexture_inv s p View h)

theorem BeginDestroy_inv (H : Host) (s : UVaQuoleUIComponent) (h : Inv s) :
    Inv (BeginDestroy H s) := by
  have key : ∀ s0, TextureInv s0 → Inv (DestroyUITexture H s0) := by
    intro s0 h0
    refine ⟨(DestroyUITexture_inv H s0 h0).1, ?_⟩
    intro t ht
    rw [(DestroyUITexture_frame H s0).2.2.2.2.2.2] at ht
    simp at ht
  unfold BeginDestroy
  dsimp only
  split
  · exact key _ (TextureInv_congr s _ rfl rfl rfl rfl rfl rfl h.1)
  · exact key _ h.1

theorem InitializeComponent_inv (H : Host) (s s1 : UVaQuoleUIComponent) (h : Inv s)
    (hs : InitializeComponent H s = some s1) : Inv s1 := by
  unfold InitializeComponent at hs
  simp only [Option.map_eq_some'] at hs
  obtain ⟨s2, h2, rfl⟩ := hs
  apply OpenURL_inv
  refine Resize_inv H _ s2 _ _ ?_ h2
  exact (SetTransparent_inv { s with WebPage := H.ConstructNewPage } _
    (Inv_congr s _ rfl rfl rfl rfl rfl rfl rfl rfl h)).1

theorem Step_inv (H : Host) (s s1 : UVaQuoleUIComponent) (op : Op) (h : Inv s)
    (hs : Step H s op = some s1) : Inv s1 := by
  cases op with
  | InitializeComponent => exact InitializeComponent_inv H s s1 h hs
  | BeginDestroy =>
    simp only [Step, Option.some.injEq] at hs; rw [← hs]; exact BeginDestroy_inv H s h
  | TickComponent p v =>
    simp only [Step, Option.some.injEq] at hs; rw [← hs]; exact TickComponent_inv s p v h
  | SetEnabled b =>
    simp only [Step, Option.some.injEq] at hs; rw [← hs]; exact SetEnabled_inv s b h
  | SetTransparent b =>
    simp only [Step, Option.some.injEq] at hs; rw [← hs]; exact SetTransparent_inv s b h
  | Resize w h1 => exact Resize_inv H s s1 w h1 h.1 hs
  | EvaluateJavaScript src =>
    simp only [Step, Option.some.injEq] at hs; rw [← hs]; exact EvaluateJavaScript_inv s src h
  | OpenURL url =>
    simp only [Step, Option.some.injEq] at hs; rw [← hs]; exact OpenURL_inv H s url h
  | SetMousePosition x y =>
    simp only [Step, Option.some.injEq] at hs; rw [← hs]; exact SetMousePosition_inv s x y h
  | RenderThread =>
    simp only [Step, Option.some.injEq] at hs; rw [← hs]; exact RenderThreadStep_inv H s h

theorem Run_inv (H : Host) (ops : List Op) (s s1 : UVaQuoleUIComponent) (h : Inv s)
    (hs : Run H s ops = some s1) : Inv s1 := by
  induction ops generalizing s with
  | nil => simp only [Run, Option.some.injEq] at hs; rw [← hs]; exact h
  | cons op ops ih =>
    simp only [Run, Option.bind_eq_some] at hs
    obtain ⟨s2, h2, h3⟩ := hs
    exact ih s2 (Step_inv H s s2 op h h2) h3

/-- Every state a run of the constructed component reaches satisfies the invariant. -/
theorem Reachable_inv (H : Host) (BaseMaterial : Bool) (ops : List Op)
    (s : UVaQuoleUIComponent) (hs : Run H (Construct BaseMaterial) ops = some s) : Inv s :=
  Run_inv H ops _ s (Construct_inv BaseMaterial) hs

theorem Inv_LiveResources (s : UVaQuoleUIComponent) (h : TextureInv s) : LiveResources s ≤ 1 := by
  show (Unreleased s.Resources).length ≤ 1
  rcases Option.eq_none_or_eq_some (CurrentResource s) with hc | ⟨rid, hc⟩
  · rw [(h.resNone hc).1]; simp
  · obtain ⟨t, ht, hr⟩ := Option.bind_eq_some.mp hc
    obtain ⟨r, hU, _⟩ := h.resSome t rid ht hr
    rw [hU]; simp

/-! ## The texture lifecycle -/

/-- C3: in every state a run of the constructed component reaches, `Resize(w, h)` with positive
sizes completes; afterwards the logical size is `(w, h)`, exactly one texture handle is live and
it is the component's texture, created with size `(w, h)`; every render resource not released
has that size and belongs to that texture. -/
theorem Resize_one_texture (H : Host) (BaseMaterial : Bool) (ops : List Op)
    (s : UVaQuoleUIComponent) (w h : Int)
    (hs : Run H (Construct BaseMaterial) ops = some s) (hw : 0 < w) (hh : 0 < h) :
    ∃ s1 t, Resize H s w h = some s1 ∧ s1.Width = w ∧ s1.Height = h ∧ LiveHandles s1 = 1 ∧
      s1.Texture = some t ∧ s1.LiveTextures = [t.Id] ∧ t.SizeX = w ∧ t.SizeY = h ∧
      LiveResources s1 ≤ 1 ∧
      ∀ r ∈ Unreleased s1.Resources,
        r.SizeX = w ∧ r.SizeY = h ∧ t.Resource = some r.Id := by
  have hinv := Reachable_inv H BaseMaterial ops s hs
  obtain ⟨s1, t, h1, h2, h3, h4, h5, h6, h7, h8, _⟩ := Resize_ok H s w h hw hh hinv.1
  refine ⟨s1, t, h1, h7, h8, by simp [LiveHandles, h6], h3, h6, h4, h5,
    Inv_LiveResources s1 h2.1, ?_⟩
  intro r hr
  rcases Option.eq_none_or_eq_some (CurrentResource s1) with hc | ⟨rid, hc⟩
  · rw [(h2.1.resNone hc).1] at hr; simp at hr
  · obtain ⟨t1, ht1, hr1⟩ := Option.bind_eq_some.mp hc
    rw [h3] at ht1
    simp only [Option.some.injEq] at ht1
    subst ht1
    obtain ⟨r1, hU, hid, hx, hy, _⟩ := h2.1.resSome t rid h3 hr1
    rw [hU] at hr
    simp only [List.mem_singleton] at hr
    subst hr
    exact ⟨by rw [hx, h4], by rw [hy, h5], by rw [hid, hr1]⟩

theorem Resize_one_texture_witness :
    ∃ s1 t, Resize ExampleHost ExampleReady 3 2 = some s1 ∧ s1.Width = 3 ∧ s1.Height = 2 ∧
      LiveHandles s1 = 1 ∧ s1.Texture = some t ∧ s1.LiveTextures = [t.Id] ∧
      t.SizeX = 3 ∧ t.SizeY = 2 ∧ LiveResources s1 ≤ 1 ∧
      ∀ r ∈ Unreleased s1.Resources, r.SizeX = 3 ∧ r.SizeY = 2 ∧ t.Resource = some r.Id :=
  Resize_one_texture ExampleHost true ExampleReadyOps ExampleReady 3 2 (by decide) (by decide)
    (by decide)

/-- C4: in every state a run of the constructed component reaches (any sequence of public
operations, with steps of the rendering thread in between), at most one texture handle is live,
at most one render resource is unreleased, and at no moment so far, inside an operation
included, were two texture handles live: a texture is only created once the old one is
released. -/
theorem live_handles_le_one (H : Host) (BaseMaterial : Bool) (ops : List Op)
    (s : UVaQuoleUIComponent) (hs : Run H (Construct BaseMaterial) ops = some s) :
    LiveHandles s ≤ 1 ∧ s.MaxLiveTextures ≤ 1 ∧ LiveResources s ≤ 1 ∧
    LiveHandles (DestroyUITexture H s) = 0 := by
  have hinv := Reachable_inv H BaseMaterial ops s hs
  refine ⟨?_, hinv.1.maxLive, Inv_LiveResources s hinv.1, ?_⟩
  · show s.LiveTextures.length ≤ 1
    rw [hinv.1.live]
    cases s.Texture <;> simp
  · show (DestroyUITexture H s).LiveTextures.length = 0
    rw [(DestroyUITexture_inv H s hinv.1).2.1]; rfl

theorem live_handles_le_one_witness :
    LiveHandles ExamplePending ≤ 1 ∧ ExamplePending.MaxLiveTextures ≤ 1 ∧
    LiveResources ExamplePending ≤ 1 ∧
    LiveHandles (DestroyUITexture ExampleHost ExamplePending) = 0 :=
  live_handles_le_one ExampleHost true ExamplePendingOps ExamplePending (by decide)

/-- C5: in every state a run of the constructed component reaches, no upload command has been
executed on a texture that was not live, and none is during `DestroyUITexture`, which leaves no
queued command; when an upload is queued, its target is live, and `DestroyUITexture` makes the
rendering thread execute the queued commands in order, each against the live texture (the upload
is logged as an upload into live storage, or as a failed lock), and only after them release the
resource: afterwards the target is not live and no resource is unreleased. -/
theorem DestroyUITexture_drains (H : Host) (BaseMaterial : Bool) (ops : List Op)
    (s : UVaQuoleUIComponent) (hs : Run H (Construct BaseMaterial) ops = some s) :
    (∀ x, RenderEvent.StaleAccess x ∉ s.RenderLog) ∧
    (∀ x, RenderEvent.StaleAccess x ∉ (DestroyUITexture H s).RenderLog) ∧
    (DestroyUITexture H s).RenderQueue = [] ∧
    Unreleased (DestroyUITexture H s).Resources = [] ∧
    (DestroyUITexture H s).Texture = none ∧
    ∀ img target n, RenderCommand.UpdateVaQuoleTexture img target n ∈ s.RenderQueue →
      (DestroyUITexture H s).RenderLog =
        s.RenderLog ++ s.RenderQueue.map (EventOf H) ++ [RenderEvent.ReleaseRHI target] ∧
      UploadEvent H img target ∈ s.RenderQueue.map (EventOf H) ∧
      (∀ x, RenderEvent.ReleaseRHI x ∉ s.RenderQueue.map (EventOf H)) ∧
      IsLive s.Resources target = true ∧
      IsLive (DestroyUITexture H s).Resources target = false := by
  have hinv := Reachable_inv H BaseMaterial ops s hs
  obtain ⟨hd1, _, hd3, hd4⟩ := DestroyUITexture_inv H s hinv.1
  refine ⟨hinv.1.log, hd1.log, hd4, hd3, (DestroyUITexture_frame H s).2.2.2.2.2.2, ?_⟩
  intro img target n hc
  obtain ⟨t, rid, ht, hr⟩ := Inv_queue_nonempty s hinv.1 (List.ne_nil_of_mem hc)
  have hR := hinv.1.resSome t rid ht hr
  obtain ⟨r, hU, hid, _, _, _, hq⟩ := id hR
  have htarget : target = rid ∧ r.Texture2DRHI.isSome = true := by
    rcases hq _ hc with h1 | ⟨img1, n1, h1, h2⟩
    · simp at h1
    · simp only [RenderCommand.UpdateVaQuoleTexture.injEq] at h1
      exact ⟨h1.2.1, h2⟩
  obtain ⟨rfl, hsome⟩ := htarget
  obtain ⟨_, he2⟩ := EventOf_queued H target _ _ s.Resources s.RenderQueue hR
  refine ⟨?_, ?_, he2, ?_, ?_⟩
  · rw [DestroyUITexture_some_some H s t target ht hr]
    exact (ExecuteAll_release H target _ _ s.RenderQueue s.Resources s.RenderLog hR).2
  · exact List.mem_map.mpr ⟨_, hc, rfl⟩
  · rw [IsLive_eq, hU]; simp [hid, hsome]
  · rw [IsLive_eq, hd3]; rfl

theorem DestroyUITexture_drains_witness :
    (DestroyUITexture ExampleHost ExamplePending).RenderQueue = [] ∧
    (DestroyUITexture ExampleHost ExamplePending).RenderLog =
      [RenderEvent.InitRHI 1, RenderEvent.ReleaseRHI 1, RenderEvent.InitRHI 3,
        RenderEvent.Upload 3 ExampleView, RenderEvent.ReleaseRHI 3] ∧
    IsLive ExamplePending.Resources 3 = true ∧
    IsLive (DestroyUITexture ExampleHost ExamplePending).Resources 3 = false :=
  have h := DestroyUITexture_drains ExampleHost true ExamplePendingOps ExamplePending (by decide)
  have h6 := h.2.2.2.2.2
    { Width := 2, Height := 1, StrideBytes := 4, Bytes := ExampleView } 3 8 (by decide)
  ⟨h.2.2.1, h6.1, h6.2.2.2.1, h6.2.2.2.2⟩

/-- C6, as the code behaves: when `CreateTransient` returns no texture (a size that is not
positive), `ResetUITexture` and `Resize` do not complete: the missing texture is used at
once. -/
theorem Resize_faults_without_texture (H : Host) (s : UVaQuoleUIComponent) (w h : Int)
    (hwh : ¬ (0 < w ∧ 0 < h)) :
    (CreateTransient (DestroyUITexture H { s with Width := w, Height := h }) w h).1 = none ∧
    ResetUITexture H { s with Width := w, Height := h } = none ∧ Resize H s w h = none := by
  refine ⟨?_, ResetUITexture_fault H _ hwh, Resize_fault H s w h hwh⟩
  simp only [CreateTransient, hwh, if_false]

/-- The failing input of C6: `Resize(0, 0)` on the ready example component faults. -/
theorem Resize_zero_faults :
    Run ExampleHost (Construct true) ExampleReadyOps = some ExampleReady ∧
    Resize ExampleHost ExampleReady 0 0 = none ∧
    Run ExampleHost (Construct true) (ExampleReadyOps ++ [Op.Resize 0 0]) = none :=
  ⟨by decide, (Resize_faults_without_texture ExampleHost ExampleReady 0 0 (by decide)).2.2,
    by decide⟩

/-- C10: `DestroyUITexture` is a total function of the state; without a texture it changes
nothing; twice in a row it gives the state it gives once; and in a state a run reaches, with a
texture, it leaves no texture and no live handle and logs exactly one release of the texture's
render resource. -/
theorem DestroyUITexture_idempotent (H : Host) (s : UVaQuoleUIComponent) :
    (s.Texture = none → DestroyUITexture H s = s) ∧
    DestroyUITexture H (DestroyUITexture H s) = DestroyUITexture H s ∧
    (DestroyUITexture H s).Texture = none ∧
    (∀ BaseMaterial ops t, Run H (Construct BaseMaterial) ops = some s → s.Texture = some t →
      LiveHandles s = 1 ∧ LiveHandles (DestroyUITexture H s) = 0 ∧
      ∀ rid, t.Resource = some rid →
        (DestroyUITexture H s).RenderLog.count (RenderEvent.ReleaseRHI rid) =
          s.RenderLog.count (RenderEvent.ReleaseRHI rid) + 1) := by
  have hnone := (DestroyUITexture_frame H s).2.2.2.2.2.2
  refine ⟨DestroyUITexture_none H s, DestroyUITexture_none H _ hnone, hnone, ?_⟩
  intro bm ops t hs ht
  have hinv := Reachable_inv H bm ops s hs
  refine ⟨?_, ?_, ?_⟩
  · show s.LiveTextures.length = 1
    rw [hinv.1.live, ht]; rfl
  · show (DestroyUITexture H s).LiveTextures.length = 0
    rw [(DestroyUITexture_inv H s hinv.1).2.1]; rfl
  · intro rid hr
    have hR := hinv.1.resSome t rid ht hr
    rw [DestroyUITexture_some_some H s t rid ht hr]
    show List.count _ (ExecuteAll H (s.RenderQueue ++ [RenderCommand.ReleaseResource rid])
      (s.Resources, s.RenderLog)).2 = _
    rw [(ExecuteAll_release H rid _ _ s.RenderQueue s.Resources s.RenderLog hR).2]
    rw [List.count_append, List.count_append,
      List.count_eq_zero_of_not_mem ((EventOf_queued H rid _ _ s.Resources s.RenderQueue hR).2 rid)]
    simp

theorem DestroyUITexture_idempotent_witness :
    DestroyUITexture ExampleHost (DestroyUITexture ExampleHost ExamplePending) =
      DestroyUITexture ExampleHost ExamplePending ∧
    LiveHandles ExamplePending = 1 ∧
    LiveHandles (DestroyUITexture ExampleHost ExamplePending) = 0 ∧
    (DestroyUITexture ExampleHost ExamplePending).RenderLog.count (RenderEvent.ReleaseRHI 3) =
      ExamplePending.RenderLog.count (RenderEvent.ReleaseRHI 3) + 1 :=
  have h := DestroyUITexture_idempotent ExampleHost ExamplePending
  have h4 := h.2.2.2 true ExamplePendingOps
    { Id := 2, SizeX := 2, SizeY := 1, InRoot := true, Resource := some 3 }
    (by decide) rfl
  ⟨h.2.1, h4.1, h4.2.1, h4.2.2 3 rfl⟩

/-! ## The upload of a grabbed frame -/

end VaQuoleUI
